import Mathlib

/-!
Verification development for the Mattermost-Matrix bridge core
(`hanthor/mattermost-matrix-bridge`).

The Go source is shallowly embedded: pure string manipulation becomes
functions over `List Char` (Go iterates runes; all inputs considered here
are ASCII, where byte-level and rune-level operations agree), stateful
code becomes explicit state passing, remote calls become oracle fields of
an environment structure, side effects are recorded in an operation
trace, and fallible calls return `Option`/`Except`.
-/

namespace MMBridge

/-!
### Username encoding in `EnsureGhost` (mattermost/helpers.go)

`EnsureGhost` derives a Mattermost username from a Matrix user ID:
strip a leading `@`, emit the marker `mx.`, then per rune: `_` becomes
`__`, `:` becomes `_`, lowercase letters / digits / `-` / `.` are kept,
uppercase ASCII letters are lowercased, anything else becomes `_xHH`
(lowercase hex of the rune, zero padded to width 2), and finally the
result is truncated to 64 (bytes in Go; characters here, which agrees on
ASCII input).
-/

/-- Hex escape of one character, as produced by Go `fmt.Sprintf "_x%02x"`:
lowercase hex digits of the code point, zero padded to at least two. -/
def hexEscape (c : Char) : List Char :=
  let ds := Nat.toDigits 16 c.toNat
  '_' :: 'x' :: (if ds.length < 2 then '0' :: ds else ds)

/-- Per-character encoding step of the `EnsureGhost` username derivation
(the `switch` body of the rune loop in helpers.go). -/
def encodeChar (c : Char) : List Char :=
  if c = '_' then ['_', '_']
  else if c = ':' then ['_']
  else if ('a' ≤ c ∧ c ≤ 'z') ∨ ('0' ≤ c ∧ c ≤ '9') ∨ c = '-' ∨ c = '.' then [c]
  else if 'A' ≤ c ∧ c ≤ 'Z' then [Char.ofNat (c.toNat + 32)]
  else hexEscape c

/-- Go `strings.TrimPrefix mxid "@"`. -/
def trimAtSign : List Char → List Char
  | '@' :: rest => rest
  | l => l

/-- The username `EnsureGhost` derives from a Matrix user ID
(helpers.go lines 15-50): trim `@`, emit `mx.`, encode each rune,
truncate to 64. -/
def ensureGhostUsername (mxid : List Char) : List Char :=
  let clean := trimAtSign mxid
  let username := 'm' :: 'x' :: '.' :: clean.flatMap encodeChar
  if username.length > 64 then username.take 64 else username

/-- Split a character list at the first colon, if any. -/
def splitAtColon : List Char → Option (List Char × List Char)
  | [] => none
  | c :: rest =>
    if c = ':' then some ([], rest)
    else
      match splitAtColon rest with
      | some (a, b) => some (c :: a, b)
      | none => none

/-- Characters the Matrix spec allows in a user ID localpart. -/
def isLocalpartChar (c : Char) : Bool :=
  ('a' ≤ c && c ≤ 'z') || ('0' ≤ c && c ≤ '9') ||
    c = '.' || c = '_' || c = '=' || c = '-' || c = '/' || c = '+'

/-- Characters allowed in the server-name portion of a Matrix user ID
(hostname characters plus `:` for an optional port); a conservative
subset of the Matrix grammar: everything accepted here is valid. -/
def isServerNameChar (c : Char) : Bool :=
  ('a' ≤ c && c ≤ 'z') || ('0' ≤ c && c ≤ '9') || c = '.' || c = '-' || c = ':'

/-- Validity of a Matrix user ID: `@` + nonempty localpart + `:` +
nonempty server name, over the respective character sets. -/
def validMXID (m : List Char) : Bool :=
  match m with
  | '@' :: rest =>
    match splitAtColon rest with
    | some (lp, dom) =>
      !lp.isEmpty && lp.all isLocalpartChar && !dom.isEmpty && dom.all isServerNameChar
    | none => false
  | _ => false

/-- A valid Matrix user ID with a 65-character localpart. -/
def longMXIDA : List Char := '@' :: (List.replicate 65 'a' ++ [':', 'x'])

/-- A distinct valid Matrix user ID agreeing with `longMXIDA` on the
first 64 localpart characters. -/
def longMXIDB : List Char := '@' :: (List.replicate 64 'a' ++ ['b', ':', 'x'])

/-!
### The relay-header strip in `HandleMatrixMessage` (mattermost/api.go 375-382)

Before posting, `HandleMatrixMessage` rewrites the converted body: if it
starts with `**` and splitting at the first `": "` yields a head ending
in `**`, only the tail after the separator is kept.
-/

/-- Go `strings.SplitN s sep 2` for a nonempty separator: split at the
first occurrence of `sep`, returning `none` when `sep` does not occur
(Go returns a one-element slice in that case). -/
def splitOnce (sep : List Char) : List Char → Option (List Char × List Char)
  | [] => none
  | c :: rest =>
    if sep.isPrefixOf (c :: rest) then some ([], (c :: rest).drop sep.length)
    else
      match splitOnce sep rest with
      | some (a, b) => some (c :: a, b)
      | none => none

/-- The body rewrite of api.go lines 375-382: strip a leading
`**User**: ` style header from the outbound message. -/
def stripUserHeader (msg : List Char) : List Char :=
  if ['*', '*'].isPrefixOf msg then
    match splitOnce [':', ' '] msg with
    | some (before, after) =>
      if ['*', '*'].isSuffixOf before then after else msg
    | none => msg
  else msg

/-- Go `strings.HasPrefix` on `String` values, computed on the
underlying character lists. -/
def hasPrefixStr (s pre : String) : Bool :=
  pre.toList.isPrefixOf s.toList

/-!
### Ghost provisioning control flow in `EnsureGhost` (helpers.go 52-107)

A username lookup per remote call is modelled as an oracle
`List Char → Option User`: Go reports success as `err == nil && user != nil`
and the code treats every other outcome as a miss, so an `Option` is the
faithful collapse. `EnsureGhost` performs two lookups (one before
creation, one after a failed creation); they are separate oracle fields
because a concurrent provisioner may change the answer in between.
-/

/-- A Mattermost user as far as the provisioning path reads it. -/
structure MMUser where
  id : String
deriving DecidableEq

/-- Remote-call oracles for one run of `EnsureGhost`. -/
structure GhostEnv where
  firstLookup : List Char → Option MMUser
  createUser : Option MMUser
  secondLookup : List Char → Option MMUser

/-- Control flow of `EnsureGhost` after the username derivation
(helpers.go 52-107): lookup, create, and on creation failure a re-fetch
by the same derived name; the ghost-metadata caching step that follows a
successful creation does not affect the returned value. -/
def ensureGhost (env : GhostEnv) (mxid : List Char) : Except String String :=
  let username := ensureGhostUsername mxid
  match env.firstLookup username with
  | some u => .ok u.id
  | none =>
    match env.createUser with
    | some created => .ok created.id
    | none =>
      match env.secondLookup username with
      | some u => .ok u.id
      | none => .error "failed to create Mattermost user for ghost"

/-!
### Metadata maps and `GetClientForUser` (helpers.go 110-167)

Ghost metadata is a free-form string-keyed map; it is modelled as an
association list. `GetClientForUser` reads the cached `mm_token` entry
and issues a fresh personal access token only when no nonempty string
token is cached.
-/

/-- A value in a free-form metadata map (`map[string]any` in Go). -/
inductive MetaVal where
  | str (s : String)
  | boolV (b : Bool)
  | intV (n : Int)
deriving DecidableEq

/-- Map lookup on an association list. -/
def lookupMeta (md : List (String × MetaVal)) (k : String) : Option MetaVal :=
  match md with
  | [] => none
  | (k0, v) :: rest => if k0 = k then some v else lookupMeta rest k

/-- Map insertion or replacement on an association list. -/
def setMeta (md : List (String × MetaVal)) (k : String) (v : MetaVal) :
    List (String × MetaVal) :=
  match md with
  | [] => [(k, v)]
  | (k0, v0) :: rest => if k0 = k then (k, v) :: rest else (k0, v0) :: setMeta rest k v

/-- A Mattermost REST client: the server URL plus the bearer token it
authenticates with (`NewClient` in the source). -/
structure MMClient where
  serverURL : String
  token : String
deriving DecidableEq

/-- Bridge ghost record as read by `GetClientForUser`. -/
structure GhostRec where
  metadata : List (String × MetaVal)
deriving DecidableEq

/-- Remote-call oracles for one run of `GetClientForUser`. -/
structure CliEnv where
  serverURL : String
  ensureGhostResult : Except String String
  getGhostByID : Except String GhostRec
  createUserAccessToken : String → Option String

/-- Side effects recorded by the `GetClientForUser` model. -/
inductive CliOp where
  | createToken (userID : String)
  | dbUpdateGhost (metadata : List (String × MetaVal))
deriving DecidableEq

/-- `GetClientForUser` (helpers.go 110-167): ensure the ghost, load its
metadata, return a client over the cached nonempty `mm_token` string if
present; otherwise issue a new access token, store it in the metadata
(persisting via a DB update whose failure is only logged), and return a
client over the fresh token. Returns the client with the Mattermost user
ID; the recorded trace holds token issuance and DB writes. -/
def getClientForUser (env : CliEnv) : Except String (MMClient × String) × List CliOp :=
  match env.ensureGhostResult with
  | .error e => (.error e, [])
  | .ok mmUserID =>
    match env.getGhostByID with
    | .error e => (.error e, [])
    | .ok ghost =>
      let metadata := ghost.metadata
      let cached : Option String :=
        match lookupMeta metadata "mm_token" with
        | some (MetaVal.str t) => if t ≠ "" then some t else none
        | _ => none
      match cached with
      | some t => (.ok (⟨env.serverURL, t⟩, mmUserID), [])
      | none =>
        match env.createUserAccessToken mmUserID with
        | none => (.error "failed to create access token for ghost", [CliOp.createToken mmUserID])
        | some tok =>
          (.ok (⟨env.serverURL, tok⟩, mmUserID),
            [CliOp.createToken mmUserID,
             CliOp.dbUpdateGhost (setMeta metadata "mm_token" (MetaVal.str tok))])

/-!
### `HandleMatrixMessage` (mattermost/api.go 366-451)

The outbound path: convert the Matrix content, rewrite the body, set the
thread root, resolve the acting ghost, stamp the loop-prevention prop
`from_matrix`, ensure team/channel membership (failures only logged),
then create the post with the ghost's own client. Remote calls are
oracles; membership additions and the final `CreatePost` argument are
recorded in the trace.
-/

/-- An outbound Mattermost post as `HandleMatrixMessage` assembles it. -/
structure OutPost where
  channelId : String
  userId : String
  rootId : String
  message : List Char
  fileIds : List String
  props : List (String × MetaVal)
deriving DecidableEq

/-- The slice of a `bridgev2.MatrixMessage` the handler reads. -/
structure MatrixMsg where
  portalId : String
  threadRoot : Option String
  sender : String
deriving DecidableEq

/-- The slice of a Mattermost channel the handler reads. -/
structure ChannelInfo where
  teamId : String
deriving DecidableEq

/-- Remote-call oracles for one run of `HandleMatrixMessage`. -/
structure HMEnv where
  toMattermost : Except String OutPost
  getClientForUserResult : Except String (MMClient × String)
  getGhost : Except String Unit
  getChannel : String → Except String ChannelInfo
  createPost : OutPost → Except String String

/-- Side effects recorded by the `HandleMatrixMessage` model. -/
inductive HMOp where
  | updateGhost
  | getChannel (channelId : String)
  | addTeamMember (teamId userId : String)
  | addChannelMember (channelId userId : String)
  | createPost (post : OutPost)
deriving DecidableEq

/-- The successive rewrites `HandleMatrixMessage` applies to the
converted post before creating it (api.go 372-421): target channel,
relay-header strip, thread root, acting user, and the loop-prevention
prop `from_matrix`. -/
def outboundPost (post0 : OutPost) (msg : MatrixMsg) (mmUserID : String) : OutPost :=
  let p1 := { post0 with channelId := msg.portalId }
  let p2 := { p1 with message := stripUserHeader p1.message }
  let p3 :=
    match msg.threadRoot with
    | some r => { p2 with rootId := r }
    | none => p2
  let p4 := { p3 with userId := mmUserID }
  { p4 with props := setMeta p4.props "from_matrix" (MetaVal.boolV true) }

/-- The ghost-update and membership-ensuring calls `HandleMatrixMessage`
performs before creating the post (api.go 400-438); their failures are
only logged. -/
def memberOps (env : HMEnv) (channelId mmUserID : String) : List HMOp :=
  (match env.getGhost with
   | .ok _ => [HMOp.updateGhost]
   | .error _ => []) ++
    [HMOp.getChannel channelId] ++
    (match env.getChannel channelId with
     | .ok ch => if ch.teamId ≠ "" then [HMOp.addTeamMember ch.teamId mmUserID] else []
     | .error _ => []) ++
    [HMOp.addChannelMember channelId mmUserID]

/-- `HandleMatrixMessage` (api.go 366-451). Returns the created post ID
and the trace of this function's own downstream calls. -/
def handleMatrixMessage (env : HMEnv) (msg : MatrixMsg) : Except String String × List HMOp :=
  match env.toMattermost with
  | .error e => (.error e, [])
  | .ok post0 =>
    match env.getClientForUserResult with
    | .error e => (.error e, [])
    | .ok (_userClient, mmUserID) =>
      let p5 := outboundPost post0 msg mmUserID
      let ops := memberOps env p5.channelId mmUserID
      match env.createPost p5 with
      | .error e => (.error e, ops ++ [HMOp.createPost p5])
      | .ok createdID => (.ok createdID, ops ++ [HMOp.createPost p5])

/-!
### Websocket ingestion of `posted` events (mattermost/websocket.go 42-91)

The `posted` branch of `HandleWebSocketEvent` decodes the post JSON and
builds a normalized message event from the post's fields; the decoded
`Props` map is never read. Dispatch goes to the first login in mirror
mode and to every login otherwise.
-/

/-- A decoded Mattermost post as delivered by the websocket. Timestamps
are retained as the raw `CreateAt` millisecond value that
`time.Unix(CreateAt/1000, (CreateAt%1000)*1e6)` encodes. -/
structure WSPost where
  id : String
  channelId : String
  userId : String
  message : String
  fileIds : List String
  rootId : String
  createAt : Int
  props : List (String × MetaVal)
deriving DecidableEq

/-- The normalized message event (`MattermostMessageEvent`) queued into
the bridge runtime. -/
structure MMMessageEvent where
  timestampMs : Int
  channelId : String
  userId : String
  username : String
  postId : String
  content : String
  fileIds : List String
  rootId : String
deriving DecidableEq

/-- The normalized event the `posted` branch constructs from a decoded
post (websocket.go 59-71). -/
def postedEventOf (getUsername : String → String) (p : WSPost) : MMMessageEvent :=
  { timestampMs := p.createAt
    channelId := p.channelId
    userId := p.userId
    username := getUsername p.userId
    postId := p.id
    content := p.message
    fileIds := p.fileIds
    rootId := p.rootId }

/-- Connector state read by the websocket dispatch. -/
structure WSEnv where
  getUsername : String → String
  isMirrorMode : Bool
  logins : List String

/-- The `posted` branch of `HandleWebSocketEvent` (websocket.go 44-91):
build the normalized event and queue it, to the first login in mirror
mode and to every login otherwise. Returns the queued
(login, event) pairs. -/
def handleWebSocketPosted (env : WSEnv) (p : WSPost) : List (String × MMMessageEvent) :=
  let evt := postedEventOf env.getUsername p
  if env.isMirrorMode then
    match env.logins with
    | [] => []
    | l :: _ => [(l, evt)]
  else
    env.logins.map (fun l => (l, evt))

/-!
### Mirror sync engine (mattermost/sync.go)

`SyncEngine` carries in-memory already-synced sets; they are modelled as
lists of IDs (Go map-to-bool lookup with default `false` is list
membership). Remote calls are oracles and every downstream call of the
modelled functions is recorded in the trace, so an empty trace means no
platform API call and no queued synthetic event.
-/

/-- Mattermost channel kinds (`model.ChannelType`). -/
inductive ChannelKind where
  | openCh
  | privateCh
  | direct
  | group
deriving DecidableEq

/-- The slice of a Mattermost team the sync engine reads. -/
structure Team where
  id : String
  displayName : String
  description : String
deriving DecidableEq

/-- The slice of a Mattermost channel the sync engine reads. -/
structure Channel where
  id : String
  kind : ChannelKind
  displayName : String
  purpose : String
deriving DecidableEq

/-- A bridge portal as the sync engine reads it: the Matrix room ID,
empty until the room is materialized. -/
structure Portal where
  mxid : String
deriving DecidableEq

/-- The in-memory already-synced sets of `SyncEngine`. -/
structure SyncState where
  syncedTeams : List String
  syncedChannels : List String
  syncedUsers : List String
deriving DecidableEq

/-- Remote-call oracles and configuration for the sync engine. -/
structure SyncEnv where
  anyLogin : Option String
  getPortalByKey : String → Except String Portal
  getPublicChannelsForTeam : String → Except String (List Channel)
  getPrivateChannelsForTeam : String → Except String (List Channel)
  getChannelMembers : String → Except String (List String)
  syncAllChannels : Bool
  autoInviteUsers : Bool

/-- Downstream calls recorded by the sync-engine model. `queueEvent` is
the synthetic chat-info-change event handed to `QueueRemoteEvent`. -/
inductive SyncOp where
  | getPortal (key : String)
  | queueEvent (login chatId : String)
  | apiGetPublicChannels (teamId : String)
  | apiGetPrivateChannels (teamId : String)
  | apiGetChannelMembers (channelId : String)
deriving DecidableEq

/-- `SyncEngine.SyncChannel` (sync.go 176-230): skip when already
synced, skip direct/group channels, otherwise get-or-create the portal,
queue a synthetic room-creation event when the portal has no Matrix
room yet, optionally invite members (one member-list API call, failures
only logged), and record the channel as synced. -/
def syncChannel (env : SyncEnv) (st : SyncState) (ch : Channel) :
    Except String Unit × SyncState × List SyncOp :=
  if ch.id ∈ st.syncedChannels then (.ok (), st, [])
  else if ch.kind = ChannelKind.direct ∨ ch.kind = ChannelKind.group then (.ok (), st, [])
  else
    match env.anyLogin with
    | none => (.error "no logged-in user available for portal creation", st, [])
    | some login =>
      match env.getPortalByKey ch.id with
      | .error e => (.error e, st, [SyncOp.getPortal ch.id])
      | .ok portal =>
        let ops1 :=
          [SyncOp.getPortal ch.id] ++
            (if portal.mxid = "" then [SyncOp.queueEvent login ch.id] else [])
        let ops2 :=
          ops1 ++
            (if env.autoInviteUsers ∧ portal.mxid ≠ "" then
              [SyncOp.apiGetChannelMembers ch.id]
            else [])
        (.ok (), { st with syncedChannels := ch.id :: st.syncedChannels }, ops2)

/-- The per-channel loop of `SyncEngine.SyncChannels` (sync.go 165-170):
every per-channel failure is logged and the loop continues. -/
def syncChannelLoop (env : SyncEnv) (st : SyncState) :
    List Channel → SyncState × List SyncOp
  | [] => (st, [])
  | ch :: rest =>
    let r := syncChannel env st ch
    let rec0 := syncChannelLoop env r.2.1 rest
    (rec0.1, r.2.2 ++ rec0.2)

/-- `SyncEngine.SyncChannels` (sync.go 146-173): enumerate public
channels (fatal on failure) and private channels (failure degrades to
an empty list), then sync each channel in turn. -/
def syncChannels (env : SyncEnv) (st : SyncState) (teamId : String) :
    Except String Unit × SyncState × List SyncOp :=
  match env.getPublicChannelsForTeam teamId with
  | .error e => (.error e, st, [SyncOp.apiGetPublicChannels teamId])
  | .ok pub =>
    let priv :=
      match env.getPrivateChannelsForTeam teamId with
      | .ok l => l
      | .error _ => []
    let looped := syncChannelLoop env st (pub ++ priv)
    (.ok (), looped.1,
      [SyncOp.apiGetPublicChannels teamId, SyncOp.apiGetPrivateChannels teamId] ++ looped.2)

/-- `SyncEngine.SyncTeam` (sync.go 90-143): skip when already synced,
otherwise get-or-create the portal, queue a synthetic space-creation
event when the portal has no Matrix room yet, record the team as
synced, and sync the team's channels when configured (channel-sync
failures only logged). -/
def syncTeam (env : SyncEnv) (st : SyncState) (team : Team) :
    Except String Unit × SyncState × List SyncOp :=
  if team.id ∈ st.syncedTeams then (.ok (), st, [])
  else
    match env.anyLogin with
    | none => (.error "no logged-in user available for portal creation", st, [])
    | some login =>
      match env.getPortalByKey team.id with
      | .error e => (.error e, st, [SyncOp.getPortal team.id])
      | .ok portal =>
        let ops1 :=
          [SyncOp.getPortal team.id] ++
            (if portal.mxid = "" then [SyncOp.queueEvent login team.id] else [])
        let st1 := { st with syncedTeams := team.id :: st.syncedTeams }
        if env.syncAllChannels then
          let r := syncChannels env st1 team.id
          (.ok (), r.2.1, ops1 ++ r.2.2)
        else
          (.ok (), st1, ops1)

/-!
### Backfill emission order (api.go `FetchMessages`, sync.go
`SyncHistoricalMessages`)

Both paths receive a page of posts in the source's newest-first
`postList.Order` sequence and iterate the index range backwards. The
page is modelled as the list of posts in `Order` sequence (the Go code
resolves each ordered ID through `postList.Posts`).
-/

/-- The slice of a Mattermost post read by the backfill paths and the
message converter. -/
structure Post where
  id : String
  channelId : String
  postType : String
  message : String
  fileIds : List String
  createAt : Int
  rootId : String
  userId : String
deriving DecidableEq

/-- Matrix message content kinds used by the converter and backfill. -/
inductive MsgType where
  | text
  | notice
  | image
  | video
  | audio
  | file
deriving DecidableEq

/-- Survival predicate of the `SyncHistoricalMessages` loop
(sync.go 363-366): posts whose `Type` is neither empty nor
`custom_post` are skipped as system messages. -/
def keepSyncHist (p : Post) : Bool :=
  p.postType = "" || p.postType = "custom_post"

/-- The normalized event `SyncHistoricalMessages` queues for one
historical post (sync.go 369-380); its `Username` field is never set. -/
def histEventOf (p : Post) : MMMessageEvent :=
  { timestampMs := p.createAt
    channelId := p.channelId
    userId := p.userId
    username := ""
    postId := p.id
    content := p.message
    fileIds := p.fileIds
    rootId := p.rootId }

/-- The per-post loop body of `SyncHistoricalMessages` applied to the
already-reversed page (sync.go 359-385). -/
def syncHistLoop : List Post → List MMMessageEvent
  | [] => []
  | p :: rest =>
    if p.postType ≠ "" ∧ p.postType ≠ "custom_post" then syncHistLoop rest
    else histEventOf p :: syncHistLoop rest

/-- `SyncHistoricalMessages` emission (sync.go 356-385): iterate the
newest-first page backwards, skipping system posts. -/
def syncHistoricalEmit (order : List Post) : List MMMessageEvent :=
  syncHistLoop order.reverse

/-- One content part of a backfill message. -/
structure BfPart where
  body : String
  msgType : MsgType
deriving DecidableEq

/-- One backfilled reaction. -/
structure BfReaction where
  sender : String
  emoji : String
  timestampMs : Int
deriving DecidableEq

/-- A `bridgev2.BackfillMessage` as `FetchMessages` assembles it. -/
structure BackfillMessage where
  id : String
  sender : String
  timestampMs : Int
  parts : List BfPart
  threadRoot : Option String
  reactions : List BfReaction
deriving DecidableEq

/-- Remote-call oracles for `FetchMessages` conversion: username
resolution and the per-post reaction fetch (a failed fetch, `none`,
degrades to no reactions). -/
structure FetchEnv where
  getUsername : String → String
  getReactions : String → Option (List (String × String × Int))

/-- The parts `FetchMessages` builds for one post (api.go 757-786):
a text part for a nonempty message, and a notice placeholder when files
are attached to an empty message. -/
def fetchPartsOf (p : Post) : List BfPart :=
  (if p.message ≠ "" then [⟨p.message, MsgType.text⟩] else []) ++
    (if p.fileIds ≠ [] ∧ p.message = "" then
      [⟨"[" ++ toString p.fileIds.length ++ " file attachment(s)]", MsgType.notice⟩]
    else [])

/-- The backfill message `FetchMessages` builds for one surviving post
(api.go 788-818). -/
def bfMsgOf (env : FetchEnv) (p : Post) : BackfillMessage :=
  { id := p.id
    sender := env.getUsername p.userId
    timestampMs := p.createAt
    parts := fetchPartsOf p
    threadRoot := if p.rootId ≠ "" then some p.rootId else none
    reactions :=
      match env.getReactions p.id with
      | some rs => rs.map (fun r => ⟨env.getUsername r.1, r.2.1, r.2.2⟩)
      | none => [] }

/-- The per-post loop body of `FetchMessages` applied to the
already-reversed page (api.go 746-819): skip posts whose type is
neither empty nor `custom_` prefixed, then skip posts that produced no
parts. -/
def fetchLoop (env : FetchEnv) : List Post → List BackfillMessage
  | [] => []
  | p :: rest =>
    if p.postType ≠ "" ∧ ¬hasPrefixStr p.postType "custom_" then fetchLoop env rest
    else if fetchPartsOf p = [] then fetchLoop env rest
    else bfMsgOf env p :: fetchLoop env rest

/-- `FetchMessages` emission (api.go 741-819): iterate the newest-first
page backwards. -/
def fetchMessagesEmit (env : FetchEnv) (order : List Post) : List BackfillMessage :=
  fetchLoop env order.reverse

/-- Survival predicate of the `FetchMessages` loop: non-system type and
at least one produced part. -/
def keepFetch (p : Post) : Bool :=
  (p.postType = "" || hasPrefixStr p.postType "custom_") && !(fetchPartsOf p).isEmpty

/-- A post that is an ordinary user post by type (non-system under any
reading: its `Type` is empty) yet carries no text and no files. -/
def emptyPost : Post :=
  { id := "p0", channelId := "c1", postType := "", message := "", fileIds := [],
    createAt := 5, rootId := "", userId := "u1" }

/-- A trivial oracle environment for concrete backfill evaluations. -/
def fetchEnv0 : FetchEnv :=
  { getUsername := fun _ => "", getReactions := fun _ => none }

/-!
### Message converter, Mattermost to Matrix
(mattermost/msgconv/from_mattermost.go)

Markdown rendering is performed by an external library; it is an
opaque oracle `render` of the environment. File bytes are `List Nat`.
-/

/-- Rendered rich-text content (output of the external markdown
renderer). -/
structure Rendered where
  body : String
deriving DecidableEq

/-- Mattermost file metadata as the converter reads it. -/
structure FileMeta where
  name : String
  mimeType : String
  width : Int
  height : Int
deriving DecidableEq

/-- Remote-call and library oracles for the converter. -/
structure ConvEnv where
  render : String → Rendered
  getFileWithInfo : String → Option (List Nat × Option FileMeta)
  getFile : String → Option (List Nat)
  detectContentType : List Nat → String
  extensionForMime : String → Option String
  uploadMedia : List Nat → String → String → Option String
  maxFileSize : Int

/-- One part of a converted message: rendered text, or an uploaded
media part carrying filename, MIME type, byte size, upload reference,
optional image dimensions, message kind, and an optional merged
caption. -/
inductive CPart where
  | text (content : Rendered)
  | media (fileName : String) (mimeType : String) (size : Nat) (mxc : String)
      (dims : Option (Int × Int)) (msgType : MsgType) (caption : Option Rendered)
deriving DecidableEq

/-- `mimeToMsgType` (from_mattermost.go 152-161). -/
def mimeToMsgType (mime : String) : MsgType :=
  if hasPrefixStr mime "image/" then MsgType.image
  else if hasPrefixStr mime "video/" then MsgType.video
  else if hasPrefixStr mime "audio/" then MsgType.audio
  else MsgType.file

/-- The file download step of `fileToMatrix` (from_mattermost.go
82-91): metadata-carrying fetch with a plain-download fallback; the
fallback yields no metadata. -/
def fetchedFile (env : ConvEnv) (fileID : String) : Option (List Nat × Option FileMeta) :=
  match env.getFileWithInfo fileID with
  | some r => some r
  | none =>
    match env.getFile fileID with
    | some data => some (data, none)
    | none => none

/-- `fileToMatrix` (from_mattermost.go 71-150): download, determine
filename and MIME type (sniffing content when metadata is missing),
drop the part when a positive size ceiling is exceeded, upload, and
build the media part with image dimensions only for images that report
positive dimensions. -/
def fileToMatrix (env : ConvEnv) (fileID : String) : Option CPart :=
  match fetchedFile env fileID with
  | none => none
  | some (data, info) =>
    let fileName :=
      match info with
      | some meta => meta.name
      | none => "file" ++ ((env.extensionForMime (env.detectContentType data)).getD "")
    let mimeType :=
      match info with
      | some meta => if meta.mimeType = "" then env.detectContentType data else meta.mimeType
      | none => env.detectContentType data
    if 0 < env.maxFileSize ∧ env.maxFileSize < (data.length : Int) then none
    else
      match env.uploadMedia data fileName mimeType with
      | none => none
      | some mxc =>
        let dims :=
          match info with
          | some meta =>
            if hasPrefixStr mimeType "image/" ∧ 0 < meta.width ∧ 0 < meta.height then
              some (meta.width, meta.height)
            else none
          | none => none
        some (CPart.media fileName mimeType data.length mxc dims (mimeToMsgType mimeType) none)

/-- Attach a rendered caption to the first non-text part of a list,
keeping the other parts; fails when no non-text part exists. -/
def attachCaption (r : Rendered) : List CPart → Option (List CPart)
  | [] => none
  | CPart.text t :: rest => (attachCaption r rest).map (fun l => CPart.text t :: l)
  | CPart.media n m s u d mt _ :: rest => some (CPart.media n m s u d mt (some r) :: rest)

/-- Modelled from the spec: the caption-merge helper
`ConvertedMessage.MergeCaption` lives in the external bridge framework
and is not under src/; the spec states that when both text and at least
one attachment part exist the converter attempts to "attach the text to
the first non-text part rather than emitting separate parts". The
attempt fails (returns `none`, leaving the parts unchanged) when the
list does not start with a text part or has no non-text part. -/
def mergeCaption (parts : List CPart) : Option (List CPart) :=
  match parts with
  | CPart.text r :: rest => attachCaption r rest
  | _ => none

/-- A fully converted message. -/
structure Converted where
  parts : List CPart
  threadRoot : Option String
deriving DecidableEq

/-- `MessageConverter.ToMatrix` (from_mattermost.go 17-69): thread root
from `RootId`, a rendered text part for a nonempty message, the
surviving converted file parts, then the caption-merge attempt when
more than one part exists alongside a nonempty message. -/
def toMatrix (env : ConvEnv) (post : Post) : Converted :=
  let threadRoot := if post.rootId ≠ "" then some post.rootId else none
  let textParts := if post.message ≠ "" then [CPart.text (env.render post.message)] else []
  let fileParts := post.fileIds.filterMap (fileToMatrix env)
  let parts := textParts ++ fileParts
  let merged :=
    if parts.length > 1 ∧ post.message ≠ "" then (mergeCaption parts).getD parts
    else parts
  { parts := merged, threadRoot := threadRoot }

/-!
### `UpdateGhost` (mattermost/ghosts.go 14-109)

Ghost profile synchronization: an optional profile back-fetch from the
Matrix side, a content-addressed avatar update, and a display-name
patch guarded by a comparison with the remote first name. Avatar bytes
are `List Nat` and the SHA-256 digest is an oracle function of the
environment (the development only relies on digest comparison).
-/

/-- The slice of a bridge ghost `UpdateGhost` reads and writes. -/
structure GhostProfile where
  name : String
  avatarMXC : String
  avatarHash : List Nat
deriving DecidableEq

/-- Remote-call and library oracles for `UpdateGhost`. -/
structure UGEnv where
  synapseURL : String
  getProfile : Option (String × String)
  downloadMedia : String → Option (List Nat)
  sha256 : List Nat → List Nat
  setProfileImageOk : Bool
  getUser : Option String

/-- Downstream calls recorded by the `UpdateGhost` model. -/
inductive UGOp where
  | getProfile
  | dbUpdate (ghost : GhostProfile)
  | downloadMedia (mxc : String)
  | setProfileImage (data : List Nat)
  | getUser
  | patchUser (firstName lastName nickname : String)
deriving DecidableEq

/-- The profile back-fetch step of `UpdateGhost` (ghosts.go 21-41):
when the ghost lacks a name or an avatar and a Synapse admin URL is
configured, fetch the Matrix profile and adopt its nonempty fields. -/
def profileStep (env : UGEnv) (ghost : GhostProfile) : GhostProfile × List UGOp :=
  if (ghost.name = "" ∨ ghost.avatarMXC = "") ∧ env.synapseURL ≠ "" then
    match env.getProfile with
    | some (displayName, avatarURL) =>
      let g1 := if displayName ≠ "" then { ghost with name := displayName } else ghost
      let g2 := if avatarURL ≠ "" then { g1 with avatarMXC := avatarURL } else g1
      (g2, [UGOp.getProfile, UGOp.dbUpdate g2])
    | none => (ghost, [UGOp.getProfile])
  else (ghost, [])

/-- The calls made by the display-name step of `UpdateGhost`
(ghosts.go 86-106): fetch the remote user (failure skips the step) and
patch first name, last name and nickname only when the remote first
name differs from the ghost name; patch failures are only logged. -/
def nameExtra (env : UGEnv) (g : GhostProfile) : List UGOp :=
  if g.name ≠ "" then
    match env.getUser with
    | none => [UGOp.getUser]
    | some remoteFirstName =>
      if remoteFirstName ≠ g.name then
        [UGOp.getUser, UGOp.patchUser g.name "" g.name]
      else [UGOp.getUser]
  else []

/-- The display-name step of `UpdateGhost` (ghosts.go 86-106): it never
fails and never mutates the ghost, only appending its calls to the
trace. -/
def nameStep (env : UGEnv) (g : GhostProfile) (ops : List UGOp) :
    Except String Unit × GhostProfile × List UGOp :=
  (.ok (), g, ops ++ nameExtra env g)

/-- The avatar portion of `UpdateGhost` (ghosts.go 56-84) followed by
the display-name step, starting from the ghost `g1` produced by the
profile back-fetch: for a ghost with an avatar reference download the
bytes (fatal on failure), compare the SHA-256 digest with the cached
hash, and only on mismatch upload the image (fatal on failure) and
store the new hash. -/
def avatarStep (env : UGEnv) (g1 : GhostProfile) (ops1 : List UGOp) :
    Except String Unit × GhostProfile × List UGOp :=
  if g1.avatarMXC ≠ "" then
    match env.downloadMedia g1.avatarMXC with
    | none => (.error "failed to download avatar", g1, ops1 ++ [UGOp.downloadMedia g1.avatarMXC])
    | some data =>
      let opsD := ops1 ++ [UGOp.downloadMedia g1.avatarMXC]
      if env.sha256 data = g1.avatarHash then nameStep env g1 opsD
      else if env.setProfileImageOk then
        let g2 := { g1 with avatarHash := env.sha256 data }
        nameStep env g2 (opsD ++ [UGOp.setProfileImage data, UGOp.dbUpdate g2])
      else
        (.error "failed to set profile image", g1, opsD ++ [UGOp.setProfileImage data])
  else nameStep env g1 ops1

/-- `UpdateGhost` (ghosts.go 14-109): the profile back-fetch followed
by the avatar and display-name steps. -/
def updateGhost (env : UGEnv) (ghost : GhostProfile) :
    Except String Unit × GhostProfile × List UGOp :=
  let stepped := profileStep env ghost
  avatarStep env stepped.1 stepped.2

/-!
### Concrete instances used by the witness theorems
-/

/-- Concrete converted post for witness evaluation. -/
def outPostW : OutPost :=
  { channelId := "", userId := "", rootId := "", message := "hi".toList,
    fileIds := [], props := [] }

/-- Concrete environment for witness evaluation of the outbound path. -/
def hmEnvW : HMEnv :=
  { toMattermost := .ok outPostW
    getClientForUserResult := .ok (⟨"http://mm", "tok"⟩, "mmid1")
    getGhost := .error "no ghost"
    getChannel := fun _ => .error "not found"
    createPost := fun _ => .ok "created1" }

/-- Concrete Matrix message for witness evaluation. -/
def matrixMsgW : MatrixMsg :=
  { portalId := "chan1", threadRoot := none, sender := "@alice:example.org" }

/-- Concrete environment for witness evaluation of ghost provisioning. -/
def ghostEnvW : GhostEnv :=
  { firstLookup := fun _ => none
    createUser := none
    secondLookup := fun _ => some ⟨"uid1"⟩ }

/-- Concrete sync environment for witness evaluation. -/
def syncEnvW : SyncEnv :=
  { anyLogin := some "login1"
    getPortalByKey := fun _ => .ok ⟨""⟩
    getPublicChannelsForTeam := fun _ => .ok []
    getPrivateChannelsForTeam := fun _ => .ok []
    getChannelMembers := fun _ => .ok []
    syncAllChannels := true
    autoInviteUsers := false }

/-- Concrete team for witness evaluation. -/
def teamW : Team := { id := "t1", displayName := "Team One", description := "" }

/-- Concrete channel for witness evaluation. -/
def channelW : Channel :=
  { id := "c1", kind := ChannelKind.openCh, displayName := "Town Square", purpose := "" }

/-- Two concrete posts, newest first, for witness evaluation. -/
def postNew : Post :=
  { id := "p2", channelId := "c1", postType := "", message := "second", fileIds := [],
    createAt := 20, rootId := "", userId := "u1" }

/-- The older of the two concrete posts. -/
def postOld : Post :=
  { id := "p1", channelId := "c1", postType := "", message := "first", fileIds := [],
    createAt := 10, rootId := "", userId := "u1" }

/-- Concrete converter environment with a 5-byte ceiling and a 10-byte
attachment. -/
def convEnvBig : ConvEnv :=
  { render := fun s => ⟨s⟩
    getFileWithInfo := fun _ =>
      some ([0, 1, 2, 3, 4, 5, 6, 7, 8, 9],
        some ⟨"big.bin", "application/octet-stream", 0, 0⟩)
    getFile := fun _ => none
    detectContentType := fun _ => "application/octet-stream"
    extensionForMime := fun _ => none
    uploadMedia := fun _ _ _ => some "mxc://up"
    maxFileSize := 5 }

/-- Concrete post carrying text and one attachment. -/

def bigPost : Post :=
  { id := "pb", channelId := "c1", postType := "", message := "look",
    fileIds := ["f1"], createAt := 1, rootId := "", userId := "u1" }

/-- Concrete converter environment with no size ceiling and one image
attachment. -/
def convEnvPic : ConvEnv :=
  { render := fun s => ⟨s⟩
    getFileWithInfo := fun _ => some ([1, 2], some ⟨"pic.png", "image/png", 0, 0⟩)
    getFile := fun _ => none
    detectContentType := fun _ => "application/octet-stream"
    extensionForMime := fun _ => none
    uploadMedia := fun _ _ _ => some "mxc://pic"
    maxFileSize := 0 }

/-- Concrete post with text and one image attachment. -/

def picPost : Post :=
  { id := "pp", channelId := "c1", postType := "", message := "caption me",
    fileIds := ["f1"], createAt := 2, rootId := "", userId := "u1" }

/-- Concrete environment holding a cached ghost token. -/
def cliEnvW : CliEnv :=
  { serverURL := "http://mm"
    ensureGhostResult := .ok "uid1"
    getGhostByID := .ok ⟨[("mm_token", MetaVal.str "tok1")]⟩
    createUserAccessToken := fun _ => none }

/-- Concrete environment for witness evaluation of the avatar skip. -/
def ugEnvW : UGEnv :=
  { synapseURL := ""
    getProfile := none
    downloadMedia := fun _ => some [1]
    sha256 := fun _ => [7]
    setProfileImageOk := true
    getUser := none }

/-- Concrete ghost whose cached hash matches the downloaded bytes. -/
def ghostPW : GhostProfile :=
  { name := "Alice", avatarMXC := "mxc://a", avatarHash := [7] }

/-!
### Helper lemmas
-/

theorem lookupMeta_setMeta (md : List (String × MetaVal)) (k : String) (v : MetaVal) :
    lookupMeta (setMeta md k v) k = some v := by
  induction md with
  | nil => simp [setMeta, lookupMeta]
  | cons hd rest ih =>
    by_cases h : hd.1 = k
    · simp [setMeta, lookupMeta, h]
    · simp [setMeta, lookupMeta, h, ih]

theorem createPost_notin_memberOps (env : HMEnv) (cid uid : String) (p : OutPost) :
    HMOp.createPost p ∉ memberOps env cid uid := by
  intro h
  simp only [memberOps, List.mem_append, List.mem_singleton, List.mem_cons] at h
  rcases h with ((h | h) | h) | h
  · split at h <;> simp at h
  · simp at h
  · split at h
    · split at h <;> simp at h
    · simp at h
  · simp at h

theorem handleMatrixMessage_createPost (env : HMEnv) (m : MatrixMsg) (p : OutPost)
    (h : HMOp.createPost p ∈ (handleMatrixMessage env m).2) :
    ∃ p0 cl uid, env.toMattermost = .ok p0 ∧ env.getClientForUserResult = .ok (cl, uid) ∧
      p = outboundPost p0 m uid := by
  unfold handleMatrixMessage at h
  cases ht : env.toMattermost with
  | error e => simp [ht] at h
  | ok p0 =>
    cases hc : env.getClientForUserResult with
    | error e => simp [ht, hc] at h
    | ok pr =>
      obtain ⟨cl, uid⟩ := pr
      refine ⟨p0, cl, uid, rfl, rfl, ?_⟩
      rw [ht, hc] at h
      cases hcp : env.createPost (outboundPost p0 m uid) <;>
        simp only [hcp, List.mem_append, List.mem_singleton] at h <;>
        rcases h with h | h
      · exact absurd h (createPost_notin_memberOps env _ uid p)
      · injection h
      · exact absurd h (createPost_notin_memberOps env _ uid p)
      · injection h

theorem syncChannel_syncedTeams (env : SyncEnv) (st : SyncState) (ch : Channel) :
    (syncChannel env st ch).2.1.syncedTeams = st.syncedTeams := by
  unfold syncChannel
  repeat' split
  all_goals rfl

theorem syncChannelLoop_syncedTeams (env : SyncEnv) :
    ∀ (l : List Channel) (st : SyncState),
      (syncChannelLoop env st l).1.syncedTeams = st.syncedTeams := by
  intro l
  induction l with
  | nil => intro st; rfl
  | cons ch rest ih =>
    intro st
    show (syncChannelLoop env st (ch :: rest)).1.syncedTeams = st.syncedTeams
    unfold syncChannelLoop
    rw [ih]
    exact syncChannel_syncedTeams env st ch

theorem syncChannels_syncedTeams (env : SyncEnv) (st : SyncState) (teamId : String) :
    (syncChannels env st teamId).2.1.syncedTeams = st.syncedTeams := by
  unfold syncChannels
  split
  · rfl
  · exact syncChannelLoop_syncedTeams env _ st

theorem syncTeam_mem (env : SyncEnv) (st : SyncState) (team : Team)
    (h : team.id ∈ st.syncedTeams) : syncTeam env st team = (.ok (), st, []) := by
  simp [syncTeam, h]

theorem syncChannel_mem (env : SyncEnv) (st : SyncState) (ch : Channel)
    (h : ch.id ∈ st.syncedChannels) : syncChannel env st ch = (.ok (), st, []) := by
  simp [syncChannel, h]

theorem syncChannel_dm (env : SyncEnv) (st : SyncState) (ch : Channel)
    (h : ch.kind = ChannelKind.direct ∨ ch.kind = ChannelKind.group) :
    syncChannel env st ch = (.ok (), st, []) := by
  by_cases hmem : ch.id ∈ st.syncedChannels
  · exact syncChannel_mem env st ch hmem
  · simp [syncChannel, hmem, h]

theorem syncTeam_ok_mem (env : SyncEnv) (st : SyncState) (team : Team)
    (h : (syncTeam env st team).1 = .ok ()) :
    team.id ∈ (syncTeam env st team).2.1.syncedTeams := by
  by_cases hmem : team.id ∈ st.syncedTeams
  · rw [syncTeam_mem env st team hmem]
    exact hmem
  · cases hl : env.anyLogin with
    | none => simp [syncTeam, hmem, hl] at h
    | some login =>
      cases hp : env.getPortalByKey team.id with
      | error e => simp [syncTeam, hmem, hl, hp] at h
      | ok portal =>
        by_cases hc : env.syncAllChannels = true
        · simp [syncTeam, hmem, hl, hp, hc, syncChannels_syncedTeams]
        · simp [syncTeam, hmem, hl, hp, hc]

theorem syncHistLoop_eq (l : List Post) :
    syncHistLoop l = (l.filter keepSyncHist).map histEventOf := by
  induction l with
  | nil => rfl
  | cons p rest ih =>
    by_cases h : p.postType ≠ "" ∧ p.postType ≠ "custom_post"
    · have hk : keepSyncHist p = false := by
        simp only [keepSyncHist, Bool.or_eq_false_iff, decide_eq_false_iff_not]
        exact h
      simp [syncHistLoop, h, List.filter_cons, hk, ih]
    · have hk : keepSyncHist p = true := by
        simp only [keepSyncHist, Bool.or_eq_true, decide_eq_true_eq]
        rcases not_and_or.mp h with h1 | h1
        · exact Or.inl (not_not.mp h1)
        · exact Or.inr (not_not.mp h1)
      simp [syncHistLoop, h, List.filter_cons, hk, ih]

theorem fetchLoop_eq (env : FetchEnv) (l : List Post) :
    fetchLoop env l = (l.filter keepFetch).map (bfMsgOf env) := by
  induction l with
  | nil => rfl
  | cons p rest ih =>
    by_cases h1 : p.postType ≠ "" ∧ ¬hasPrefixStr p.postType "custom_"
    · have hk : keepFetch p = false := by
        simp only [keepFetch, Bool.and_eq_false_iff, Bool.or_eq_false_iff,
          decide_eq_false_iff_not]
        exact Or.inl ⟨h1.1, by simpa using h1.2⟩
      simp [fetchLoop, h1, List.filter_cons, hk, ih]
    · by_cases h2 : fetchPartsOf p = []
      · have hk : keepFetch p = false := by
          simp [keepFetch, h2]
        simp [fetchLoop, h1, h2, List.filter_cons, hk, ih]
      · have hk : keepFetch p = true := by
          unfold keepFetch
          rcases not_and_or.mp h1 with hA | hA
          · simp [not_not.mp hA, h2]
          · have hs : hasPrefixStr p.postType "custom_" = true := not_not.mp hA
            simp [hs, h2]
        unfold fetchLoop
        rw [if_neg h1, if_neg h2, List.filter_cons, hk]
        simp [ih]

theorem profileStep_avatarHash (env : UGEnv) (g : GhostProfile) :
    (profileStep env g).1.avatarHash = g.avatarHash := by
  unfold profileStep
  repeat' split
  all_goals rfl

theorem profileStep_ops_mem (env : UGEnv) (g : GhostProfile) (op : UGOp)
    (h : op ∈ (profileStep env g).2) :
    op = UGOp.getProfile ∨ ∃ gg, op = UGOp.dbUpdate gg := by
  unfold profileStep at h
  split at h
  · split at h
    · simp only [List.mem_cons, List.mem_singleton] at h
      rcases h with h | h | h
      · exact Or.inl h
      · exact Or.inr ⟨_, h⟩
      · exact absurd h (List.not_mem_nil op)
    · simp only [List.mem_singleton] at h
      exact Or.inl h
  · exact absurd h (List.not_mem_nil op)

theorem nameExtra_mem (env : UGEnv) (g : GhostProfile) (op : UGOp)
    (h : op ∈ nameExtra env g) :
    op = UGOp.getUser ∨
      (op = UGOp.patchUser g.name "" g.name ∧
        ∃ cur, env.getUser = some cur ∧ cur ≠ g.name) := by
  unfold nameExtra at h
  split at h
  · cases hu : env.getUser with
    | none =>
      rw [hu] at h
      simp only [List.mem_singleton] at h
      exact Or.inl h
    | some cur =>
      rw [hu] at h
      by_cases hne : cur ≠ g.name
      · simp [hne] at h
        rcases h with h | h
        · exact Or.inl h
        · exact Or.inr ⟨h, cur, rfl, hne⟩
      · simp [hne] at h
        exact Or.inl h
  · exact absurd h (List.not_mem_nil op)

theorem updateGhost_eq (env : UGEnv) (ghost : GhostProfile) :
    updateGhost env ghost =
      avatarStep env (profileStep env ghost).1 (profileStep env ghost).2 := rfl

theorem setImage_notin_nameExtra (env : UGEnv) (g : GhostProfile) (data : List Nat) :
    UGOp.setProfileImage data ∉ nameExtra env g := by
  intro h
  rcases nameExtra_mem env g _ h with h1 | ⟨h1, _⟩ <;> exact UGOp.noConfusion h1

theorem patchUser_mem_nameExtra (env : UGEnv) (g : GhostProfile) (f l n : String)
    (h : UGOp.patchUser f l n ∈ nameExtra env g) :
    ∃ cur, env.getUser = some cur ∧ cur ≠ f := by
  rcases nameExtra_mem env g _ h with h1 | ⟨h1, cur, hcur, hne⟩
  · exact UGOp.noConfusion h1
  · injection h1 with hf _ _
    exact ⟨cur, hcur, hf ▸ hne⟩

theorem mem_split {x : UGOp} {ops rest : List UGOp} (h : x ∈ ops ++ rest) :
    x ∈ ops ∨ x ∈ rest := List.mem_append.mp h

theorem avatarStep_no_upload (env : UGEnv) (g : GhostProfile) (ops : List UGOp)
    (data : List Nat)
    (hdl : env.downloadMedia g.avatarMXC = some data)
    (hh : env.sha256 data = g.avatarHash)
    (hops : ∀ d, UGOp.setProfileImage d ∉ ops) :
    (∀ d, UGOp.setProfileImage d ∉ (avatarStep env g ops).2.2) ∧
      (avatarStep env g ops).2.1 = g := by
  by_cases hmx : g.avatarMXC ≠ ""
  · simp only [avatarStep, if_pos hmx, hdl, if_pos hh]
    constructor
    · intro d hm
      simp only [nameStep, List.mem_append, List.mem_singleton] at hm
      rcases hm with (hm | hm) | hm
      · exact hops d hm
      · exact UGOp.noConfusion hm
      · exact setImage_notin_nameExtra env g d hm
    · rfl
  · simp only [avatarStep, if_neg hmx]
    constructor
    · intro d hm
      simp only [nameStep, List.mem_append] at hm
      rcases hm with hm | hm
      · exact hops d hm
      · exact setImage_notin_nameExtra env g d hm
    · rfl

theorem avatarStep_upload_mismatch (env : UGEnv) (g : GhostProfile) (ops : List UGOp)
    (data : List Nat)
    (h : UGOp.setProfileImage data ∈ (avatarStep env g ops).2.2)
    (hops : ∀ d, UGOp.setProfileImage d ∉ ops) :
    env.sha256 data ≠ g.avatarHash := by
  by_cases hmx : g.avatarMXC ≠ ""
  · rw [avatarStep, if_pos hmx] at h
    cases hd : env.downloadMedia g.avatarMXC with
    | none =>
      simp only [hd] at h
      rcases mem_split h with h | h
      · exact absurd h (hops data)
      · exact UGOp.noConfusion (List.eq_of_mem_singleton h)
    | some data0 =>
      simp only [hd] at h
      by_cases hh : env.sha256 data0 = g.avatarHash
      · rw [if_pos hh] at h
        have h2 : UGOp.setProfileImage data ∈
            (ops ++ [UGOp.downloadMedia g.avatarMXC]) ++ nameExtra env g := h
        rcases mem_split h2 with h3 | h3
        · rcases mem_split h3 with h4 | h4
          · exact absurd h4 (hops data)
          · exact UGOp.noConfusion (List.eq_of_mem_singleton h4)
        · exact absurd h3 (setImage_notin_nameExtra env g data)
      · rw [if_neg hh] at h
        by_cases hok : env.setProfileImageOk = true
        · rw [if_pos hok] at h
          have h2 : UGOp.setProfileImage data ∈
              ((ops ++ [UGOp.downloadMedia g.avatarMXC]) ++
                  [UGOp.setProfileImage data0,
                   UGOp.dbUpdate { g with avatarHash := env.sha256 data0 }]) ++
                nameExtra env { g with avatarHash := env.sha256 data0 } := h
          rcases mem_split h2 with h3 | h3
          · rcases mem_split h3 with h4 | h4
            · rcases mem_split h4 with h5 | h5
              · exact absurd h5 (hops data)
              · exact UGOp.noConfusion (List.eq_of_mem_singleton h5)
            · rcases List.mem_cons.mp h4 with h5 | h5
              · injection h5 with hdata
                subst hdata
                exact hh
              · exact UGOp.noConfusion (List.eq_of_mem_singleton h5)
          · exact absurd h3 (setImage_notin_nameExtra env _ data)
        · rw [if_neg hok] at h
          have h2 : UGOp.setProfileImage data ∈
              (ops ++ [UGOp.downloadMedia g.avatarMXC]) ++ [UGOp.setProfileImage data0] := h
          rcases mem_split h2 with h3 | h3
          · rcases mem_split h3 with h4 | h4
            · exact absurd h4 (hops data)
            · exact UGOp.noConfusion (List.eq_of_mem_singleton h4)
          · injection List.eq_of_mem_singleton h3 with hdata
            subst hdata
            exact hh
  · rw [avatarStep, if_neg hmx] at h
    have h2 : UGOp.setProfileImage data ∈ ops ++ nameExtra env g := h
    rcases mem_split h2 with h3 | h3
    · exact absurd h3 (hops data)
    · exact absurd h3 (setImage_notin_nameExtra env g data)

theorem avatarStep_patch_mem (env : UGEnv) (g : GhostProfile) (ops : List UGOp)
    (f l n : String)
    (h : UGOp.patchUser f l n ∈ (avatarStep env g ops).2.2)
    (hops : UGOp.patchUser f l n ∉ ops) :
    ∃ cur, env.getUser = some cur ∧ cur ≠ f := by
  by_cases hmx : g.avatarMXC ≠ ""
  · rw [avatarStep, if_pos hmx] at h
    cases hd : env.downloadMedia g.avatarMXC with
    | none =>
      simp only [hd] at h
      rcases mem_split h with h | h
      · exact absurd h hops
      · exact UGOp.noConfusion (List.eq_of_mem_singleton h)
    | some data0 =>
      simp only [hd] at h
      by_cases hh : env.sha256 data0 = g.avatarHash
      · rw [if_pos hh] at h
        have h2 : UGOp.patchUser f l n ∈
            (ops ++ [UGOp.downloadMedia g.avatarMXC]) ++ nameExtra env g := h
        rcases mem_split h2 with h3 | h3
        · rcases mem_split h3 with h4 | h4
          · exact absurd h4 hops
          · exact UGOp.noConfusion (List.eq_of_mem_singleton h4)
        · exact patchUser_mem_nameExtra env g f l n h3
      · rw [if_neg hh] at h
        by_cases hok : env.setProfileImageOk = true
        · rw [if_pos hok] at h
          have h2 : UGOp.patchUser f l n ∈
              ((ops ++ [UGOp.downloadMedia g.avatarMXC]) ++
                  [UGOp.setProfileImage data0,
                   UGOp.dbUpdate { g with avatarHash := env.sha256 data0 }]) ++
                nameExtra env { g with avatarHash := env.sha256 data0 } := h
          rcases mem_split h2 with h3 | h3
          · rcases mem_split h3 with h4 | h4
            · rcases mem_split h4 with h5 | h5
              · exact absurd h5 hops
              · exact UGOp.noConfusion (List.eq_of_mem_singleton h5)
            · rcases List.mem_cons.mp h4 with h5 | h5
              · exact UGOp.noConfusion h5
              · exact UGOp.noConfusion (List.eq_of_mem_singleton h5)
          · exact patchUser_mem_nameExtra env _ f l n h3
        · rw [if_neg hok] at h
          have h2 : UGOp.patchUser f l n ∈
              (ops ++ [UGOp.downloadMedia g.avatarMXC]) ++ [UGOp.setProfileImage data0] := h
          rcases mem_split h2 with h3 | h3
          · rcases mem_split h3 with h4 | h4
            · exact absurd h4 hops
            · exact UGOp.noConfusion (List.eq_of_mem_singleton h4)
          · exact UGOp.noConfusion (List.eq_of_mem_singleton h3)
  · rw [avatarStep, if_neg hmx] at h
    have h2 : UGOp.patchUser f l n ∈ ops ++ nameExtra env g := h
    rcases mem_split h2 with h3 | h3
    · exact absurd h3 hops
    · exact patchUser_mem_nameExtra env g f l n h3

/-!
### Claim theorems
-/

/-- C1: the spec claims the `EnsureGhost` username encoding is reversible and
injective over valid Matrix identities; in fact the 64-character truncation
collapses distinct identities. This evaluates the encoding at two distinct
valid Matrix user IDs and shows they receive the same Mattermost username, so
no decoder can satisfy decode(encode(identity)) = identity over valid
identities. -/
theorem ensureGhostUsername_collision :
    validMXID longMXIDA = true ∧ validMXID longMXIDB = true ∧
      longMXIDA ≠ longMXIDB ∧
      ensureGhostUsername longMXIDA = ensureGhostUsername longMXIDB :=
  ⟨by decide, by decide, by decide, by decide⟩

/-- C2: every post `HandleMatrixMessage` hands to `CreatePost` carries the
loop-prevention prop `from_matrix = true`, and the `posted` branch of
`HandleWebSocketEvent` builds and queues its normalized event without reading
the decoded `Props`, so a post whose props carry `from_matrix = true` is
dispatched exactly like one without it. -/
theorem loop_marker_set_but_unchecked :
    (∀ env m p, HMOp.createPost p ∈ (handleMatrixMessage env m).2 →
        lookupMeta p.props "from_matrix" = some (MetaVal.boolV true)) ∧
    (∀ env p props2,
        handleWebSocketPosted env { p with props := props2 } = handleWebSocketPosted env p) := by
  constructor
  · intro env m p h
    obtain ⟨p0, cl, uid, _, _, hp⟩ := handleMatrixMessage_createPost env m p h
    subst hp
    exact lookupMeta_setMeta _ _ _
  · intro env p props2
    rfl

/-- Witness for C2 at a concrete input. -/
theorem loop_marker_set_but_unchecked_witness :
    lookupMeta (outboundPost outPostW matrixMsgW "mmid1").props "from_matrix" =
      some (MetaVal.boolV true) :=
  loop_marker_set_but_unchecked.1 hmEnvW matrixMsgW (outboundPost outPostW matrixMsgW "mmid1")
    (by decide)

/-- C3: once `SyncTeam` (resp. `SyncChannel`) has completed successfully for
an entity, calling it again with the same entity returns nil immediately,
records no downstream calls (no platform API work and no queued synthetic
events), and leaves the synced-set state unchanged. -/
theorem sync_second_call_noop :
    (∀ env st team, (syncTeam env st team).1 = .ok () →
        syncTeam env (syncTeam env st team).2.1 team =
          (.ok (), (syncTeam env st team).2.1, [])) ∧
    (∀ env st ch, (syncChannel env st ch).1 = .ok () →
        syncChannel env (syncChannel env st ch).2.1 ch =
          (.ok (), (syncChannel env st ch).2.1, [])) := by
  constructor
  · intro env st team h
    exact syncTeam_mem env _ team (syncTeam_ok_mem env st team h)
  · intro env st ch h
    by_cases hmem2 : ch.id ∈ (syncChannel env st ch).2.1.syncedChannels
    · exact syncChannel_mem env _ ch hmem2
    · by_cases hmem : ch.id ∈ st.syncedChannels
      · rw [syncChannel_mem env st ch hmem] at hmem2 ⊢
        exact absurd hmem hmem2
      · by_cases hdm : ch.kind = ChannelKind.direct ∨ ch.kind = ChannelKind.group
        · rw [syncChannel_dm env st ch hdm]
          exact syncChannel_dm env st ch hdm
        · cases hl : env.anyLogin with
          | none => simp [syncChannel, hmem, hdm, hl] at h
          | some login =>
            cases hp : env.getPortalByKey ch.id with
            | error e => simp [syncChannel, hmem, hdm, hl, hp] at h
            | ok portal =>
              exfalso
              apply hmem2
              simp [syncChannel, hmem, hdm, hl, hp]

/-- Witness for C3 at a concrete input. -/
theorem sync_second_call_noop_witness :
    syncTeam syncEnvW (syncTeam syncEnvW ⟨[], [], []⟩ teamW).2.1 teamW =
        (.ok (), (syncTeam syncEnvW ⟨[], [], []⟩ teamW).2.1, []) ∧
      syncChannel syncEnvW (syncChannel syncEnvW ⟨[], [], []⟩ channelW).2.1 channelW =
        (.ok (), (syncChannel syncEnvW ⟨[], [], []⟩ channelW).2.1, []) :=
  ⟨sync_second_call_noop.1 syncEnvW ⟨[], [], []⟩ teamW rfl,
   sync_second_call_noop.2 syncEnvW ⟨[], [], []⟩ channelW rfl⟩

/-! ### Backfill order lemmas -/

/-- C4 counterexample: a post with empty `Type` — a non-system user post,
kept by the `SyncHistoricalMessages` filter — but with empty message and no
files is emitted by `SyncHistoricalMessages` and dropped by `FetchMessages`,
so the `FetchMessages` emission is not the reversal of the input restricted
to non-system posts. -/
theorem backfill_fetch_drops_empty_post :
    keepSyncHist emptyPost = true ∧
      syncHistoricalEmit [emptyPost] = [histEventOf emptyPost] ∧
      fetchMessagesEmit fetchEnv0 [emptyPost] = [] ∧
      fetchMessagesEmit fetchEnv0 [emptyPost] ≠
        (([emptyPost].filter keepSyncHist).map (bfMsgOf fetchEnv0)).reverse :=
  ⟨rfl, rfl, rfl, by decide⟩

/-- C4 (amended): `SyncHistoricalMessages` emits exactly the reversal of the
newest-first page restricted to the posts surviving its filter (`Type` empty
or `custom_post`); `FetchMessages` emits the reversal restricted to the posts
surviving its filter (`Type` empty or `custom_`-prefixed, and producing at
least one content part); and when the page is strictly newest-first, both
emitted sequences are strictly oldest-first. -/
theorem backfill_emit_order :
    (∀ order, syncHistoricalEmit order =
        ((order.filter keepSyncHist).map histEventOf).reverse) ∧
    (∀ env order, fetchMessagesEmit env order =
        ((order.filter keepFetch).map (bfMsgOf env)).reverse) ∧
    (∀ env order,
        List.Pairwise (fun a b : Post => b.createAt < a.createAt) order →
        List.Pairwise (fun a b : MMMessageEvent => a.timestampMs < b.timestampMs)
            (syncHistoricalEmit order) ∧
          List.Pairwise (fun a b : BackfillMessage => a.timestampMs < b.timestampMs)
            (fetchMessagesEmit env order)) := by
  have hsync : ∀ order, syncHistoricalEmit order =
      ((order.filter keepSyncHist).map histEventOf).reverse := by
    intro order
    rw [syncHistoricalEmit, syncHistLoop_eq, List.filter_reverse, List.map_reverse]
  have hfetch : ∀ env order, fetchMessagesEmit env order =
      ((order.filter keepFetch).map (bfMsgOf env)).reverse := by
    intro env order
    rw [fetchMessagesEmit, fetchLoop_eq, List.filter_reverse, List.map_reverse]
  refine ⟨hsync, hfetch, ?_⟩
  intro env order h
  constructor
  · rw [hsync]
    rw [List.pairwise_reverse, List.pairwise_map]
    exact (h.sublist (List.filter_sublist order)).imp (fun hab => hab)
  · rw [hfetch]
    rw [List.pairwise_reverse, List.pairwise_map]
    exact (h.sublist (List.filter_sublist order)).imp (fun hab => hab)

/-- Witness for C4 at a concrete input. -/
theorem backfill_emit_order_witness :
    List.Pairwise (fun a b : MMMessageEvent => a.timestampMs < b.timestampMs)
        (syncHistoricalEmit [postNew, postOld]) ∧
      List.Pairwise (fun a b : BackfillMessage => a.timestampMs < b.timestampMs)
        (fetchMessagesEmit fetchEnv0 [postNew, postOld]) :=
  backfill_emit_order.2.2 fetchEnv0 [postNew, postOld] (by decide)

/-- C5: when a positive size ceiling is configured and an attachment's
downloaded byte length exceeds it, `fileToMatrix` omits the file part; a post
with nonempty text and exactly one such oversized attachment converts to
exactly one part, the rendered text part. -/
theorem oversize_attachment_skipped :
    (∀ env fid data info, fetchedFile env fid = some (data, info) →
        0 < env.maxFileSize → env.maxFileSize < (data.length : Int) →
        fileToMatrix env fid = none) ∧
    (∀ env post fid data info, post.fileIds = [fid] → post.message ≠ "" →
        fetchedFile env fid = some (data, info) →
        0 < env.maxFileSize → env.maxFileSize < (data.length : Int) →
        (toMatrix env post).parts = [CPart.text (env.render post.message)]) := by
  have hskip : ∀ env fid data info, fetchedFile env fid = some (data, info) →
      0 < env.maxFileSize → env.maxFileSize < (data.length : Int) →
      fileToMatrix env fid = none := by
    intro env fid data info h hpos hsz
    unfold fileToMatrix
    rw [h]
    simp [hpos, hsz]
  refine ⟨hskip, ?_⟩
  intro env post fid data info hf hm h hpos hsz
  unfold toMatrix
  rw [hf]
  simp [List.filterMap_cons, hskip env fid data info h hpos hsz, hm]

/-- Witness for C5 at a concrete input. -/
theorem oversize_attachment_skipped_witness :
    (toMatrix convEnvBig bigPost).parts = [CPart.text (convEnvBig.render bigPost.message)] :=
  oversize_attachment_skipped.2 convEnvBig bigPost "f1"
    [0, 1, 2, 3, 4, 5, 6, 7, 8, 9] (some ⟨"big.bin", "application/octet-stream", 0, 0⟩)
    rfl (by decide) rfl (by decide) (by decide)

/-- C6: for a source post with nonempty text and exactly one successfully
converted attachment, `ToMatrix` produces exactly one part: the media part
whose body is the attachment filename, carrying the rendered original text as
its merged caption rather than a separate text part. -/
theorem caption_merge_single_attachment :
    ∀ env post fid n m s u d mt,
      post.message ≠ "" → post.fileIds = [fid] →
      fileToMatrix env fid = some (CPart.media n m s u d mt none) →
      (toMatrix env post).parts =
        [CPart.media n m s u d mt (some (env.render post.message))] := by
  intro env post fid n m s u d mt hm hf hfile
  unfold toMatrix
  rw [hf]
  simp [List.filterMap_cons, hfile, hm, mergeCaption, attachCaption]

/-- Witness for C6 at a concrete input. -/
theorem caption_merge_single_attachment_witness :
    (toMatrix convEnvPic picPost).parts =
      [CPart.media "pic.png" "image/png" 2 "mxc://pic" none MsgType.image
        (some (convEnvPic.render picPost.message))] :=
  caption_merge_single_attachment convEnvPic picPost "f1" "pic.png" "image/png" 2
    "mxc://pic" none MsgType.image (by decide) rfl (by decide)

/-- C7: `GetClientForUser` returns a client backed by the cached token
whenever the ghost metadata holds a nonempty string under `mm_token`, issuing
no new token; otherwise it requests a fresh access token, stores it in the
metadata, and returns a client over it; and if token issuance fails it
returns an error and no client. -/
theorem getClientForUser_token_policy :
    (∀ env uid ghost t,
        env.ensureGhostResult = .ok uid → env.getGhostByID = .ok ghost →
        lookupMeta ghost.metadata "mm_token" = some (MetaVal.str t) → t ≠ "" →
        getClientForUser env = (.ok (⟨env.serverURL, t⟩, uid), [])) ∧
    (∀ env uid ghost tok,
        env.ensureGhostResult = .ok uid → env.getGhostByID = .ok ghost →
        (∀ s, lookupMeta ghost.metadata "mm_token" = some (MetaVal.str s) → s = "") →
        env.createUserAccessToken uid = some tok →
        getClientForUser env =
          (.ok (⟨env.serverURL, tok⟩, uid),
            [CliOp.createToken uid,
             CliOp.dbUpdateGhost (setMeta ghost.metadata "mm_token" (MetaVal.str tok))])) ∧
    (∀ env uid ghost,
        env.ensureGhostResult = .ok uid → env.getGhostByID = .ok ghost →
        (∀ s, lookupMeta ghost.metadata "mm_token" = some (MetaVal.str s) → s = "") →
        env.createUserAccessToken uid = none →
        ∃ e, (getClientForUser env).1 = .error e) := by
  have hfresh : ∀ env uid ghost,
      env.ensureGhostResult = .ok uid → env.getGhostByID = .ok ghost →
      (∀ s, lookupMeta ghost.metadata "mm_token" = some (MetaVal.str s) → s = "") →
      getClientForUser env =
        (match env.createUserAccessToken uid with
         | none => (.error "failed to create access token for ghost", [CliOp.createToken uid])
         | some tok =>
           (.ok (⟨env.serverURL, tok⟩, uid),
             [CliOp.createToken uid,
              CliOp.dbUpdateGhost (setMeta ghost.metadata "mm_token" (MetaVal.str tok))])) := by
    intro env uid ghost he hg hmt
    unfold getClientForUser
    rw [he, hg]
    cases hl : lookupMeta ghost.metadata "mm_token" with
    | none => simp only [hl]
    | some v =>
      cases v with
      | str s =>
        have hs : s = "" := hmt s hl
        subst hs
        simp [hl]
      | boolV b => simp only [hl]
      | intV n => simp only [hl]
  refine ⟨?_, ?_, ?_⟩
  · intro env uid ghost t he hg hl ht
    unfold getClientForUser
    rw [he, hg]
    simp [hl, ht]
  · intro env uid ghost tok he hg hmt htok
    rw [hfresh env uid ghost he hg hmt, htok]
  · intro env uid ghost he hg hmt htok
    rw [hfresh env uid ghost he hg hmt, htok]
    exact ⟨_, rfl⟩

/-- Witness for C7 at a concrete input. -/
theorem getClientForUser_token_policy_witness :
    getClientForUser cliEnvW = (.ok (⟨"http://mm", "tok1"⟩, "uid1"), []) :=
  getClientForUser_token_policy.1 cliEnvW "uid1" ⟨[("mm_token", MetaVal.str "tok1")]⟩
    "tok1" rfl rfl rfl (by decide)

/-! ### UpdateGhost helper lemmas -/

/-- C8: when account creation fails but the follow-up lookup by the derived
username succeeds, `EnsureGhost` returns the existing account's ID without
error; an error is returned only when both the creation and the re-fetch
fail. -/
theorem ensureGhost_conflict_refetch :
    (∀ env mxid u,
        env.firstLookup (ensureGhostUsername mxid) = none →
        env.createUser = none →
        env.secondLookup (ensureGhostUsername mxid) = some u →
        ensureGhost env mxid = .ok u.id) ∧
    (∀ env mxid e, ensureGhost env mxid = .error e →
        env.createUser = none ∧ env.secondLookup (ensureGhostUsername mxid) = none) := by
  constructor
  · intro env mxid u h1 h2 h3
    simp [ensureGhost, h1, h2, h3]
  · intro env mxid e h
    unfold ensureGhost at h
    cases hf : env.firstLookup (ensureGhostUsername mxid) with
    | some u => simp [hf] at h
    | none =>
      cases hc : env.createUser with
      | some cu => simp [hf, hc] at h
      | none =>
        cases hs : env.secondLookup (ensureGhostUsername mxid) with
        | some u => simp [hf, hc, hs] at h
        | none => exact ⟨rfl, rfl⟩

/-- Witness for C8 at a concrete input. -/
theorem ensureGhost_conflict_refetch_witness :
    ensureGhost ghostEnvW ("@alice:example.org".toList) = .ok "uid1" :=
  ensureGhost_conflict_refetch.1 ghostEnvW ("@alice:example.org".toList) ⟨"uid1"⟩ rfl rfl rfl

/-- C9: in `UpdateGhost`, when the SHA-256 digest of the downloaded avatar
bytes equals the cached avatar hash, no profile-image upload happens and the
stored hash is unchanged; an upload occurs only when the digest differs from
the cached hash; and the display name is patched only when the remote first
name differs from the desired name. -/
theorem updateGhost_content_addressed :
    (∀ env ghost data,
        env.downloadMedia (profileStep env ghost).1.avatarMXC = some data →
        env.sha256 data = ghost.avatarHash →
        (∀ d, UGOp.setProfileImage d ∉ (updateGhost env ghost).2.2) ∧
          (updateGhost env ghost).2.1.avatarHash = ghost.avatarHash) ∧
    (∀ env ghost data, UGOp.setProfileImage data ∈ (updateGhost env ghost).2.2 →
        env.sha256 data ≠ ghost.avatarHash) ∧
    (∀ env ghost f l n, UGOp.patchUser f l n ∈ (updateGhost env ghost).2.2 →
        ∃ cur, env.getUser = some cur ∧ cur ≠ f) := by
  have hops : ∀ env ghost d, UGOp.setProfileImage d ∉ (profileStep env ghost).2 := by
    intro env ghost d hm
    rcases profileStep_ops_mem env ghost _ hm with h1 | ⟨gg, h1⟩ <;> exact UGOp.noConfusion h1
  have hopsP : ∀ env ghost f l n, UGOp.patchUser f l n ∉ (profileStep env ghost).2 := by
    intro env ghost f l n hm
    rcases profileStep_ops_mem env ghost _ hm with h1 | ⟨gg, h1⟩ <;> exact UGOp.noConfusion h1
  refine ⟨?_, ?_, ?_⟩
  · intro env ghost data hdl hh
    rw [updateGhost_eq]
    have hh2 : env.sha256 data = (profileStep env ghost).1.avatarHash := by
      rw [profileStep_avatarHash]
      exact hh
    have := avatarStep_no_upload env (profileStep env ghost).1 (profileStep env ghost).2
      data hdl hh2 (hops env ghost)
    refine ⟨this.1, ?_⟩
    rw [this.2]
    exact profileStep_avatarHash env ghost
  · intro env ghost data h
    rw [updateGhost_eq] at h
    have := avatarStep_upload_mismatch env (profileStep env ghost).1 (profileStep env ghost).2
      data h (hops env ghost)
    rw [profileStep_avatarHash] at this
    exact this
  · intro env ghost f l n h
    rw [updateGhost_eq] at h
    exact avatarStep_patch_mem env (profileStep env ghost).1 (profileStep env ghost).2
      f l n h (hopsP env ghost f l n)

/-- Witness for C9 at a concrete input. -/
theorem updateGhost_content_addressed_witness :
    (updateGhost ugEnvW ghostPW).2.1.avatarHash = ghostPW.avatarHash :=
  (updateGhost_content_addressed.1 ugEnvW ghostPW [1] rfl rfl).2

/-- C10: `HandleMatrixMessage` rewrites a converted body that starts with
`**` and whose text before the first `": "` separator ends with `**`, posting
only the text after the separator; any other body is posted unmodified; and
the message of every post handed to `CreatePost` is exactly the rewritten
converted body. -/
theorem stripUserHeader_rewrite :
    (∀ msg b a, ['*', '*'].isPrefixOf msg = true →
        splitOnce [':', ' '] msg = some (b, a) →
        ['*', '*'].isSuffixOf b = true →
        stripUserHeader msg = a) ∧
    (∀ msg, ['*', '*'].isPrefixOf msg = false → stripUserHeader msg = msg) ∧
    (∀ msg, splitOnce [':', ' '] msg = none → stripUserHeader msg = msg) ∧
    (∀ msg b a, splitOnce [':', ' '] msg = some (b, a) →
        ['*', '*'].isSuffixOf b = false → stripUserHeader msg = msg) ∧
    (∀ env m p, HMOp.createPost p ∈ (handleMatrixMessage env m).2 →
        ∃ p0, env.toMattermost = .ok p0 ∧ p.message = stripUserHeader p0.message) ∧
    stripUserHeader ("**bold**: rest".toList) = "rest".toList := by
  refine ⟨?_, ?_, ?_, ?_, ?_, by decide⟩
  · intro msg b a h1 h2 h3
    simp [stripUserHeader, h1, h2, h3]
  · intro msg h1
    simp [stripUserHeader, h1]
  · intro msg h2
    unfold stripUserHeader
    split
    · rw [h2]
    · rfl
  · intro msg b a h2 h3
    unfold stripUserHeader
    split
    · rw [h2]
      simp [h3]
    · rfl
  · intro env m p h
    obtain ⟨p0, cl, uid, ht, _, hp⟩ := handleMatrixMessage_createPost env m p h
    subst hp
    refine ⟨p0, ht, ?_⟩
    cases htr : m.threadRoot <;> simp [outboundPost, htr]

/-- Witness for C10 at a concrete input. -/
theorem stripUserHeader_rewrite_witness :
    stripUserHeader ("**Alice**: hello".toList) = "hello".toList :=
  stripUserHeader_rewrite.1 ("**Alice**: hello".toList) ("**Alice**".toList)
    ("hello".toList) (by decide) (by decide) (by decide)

end MMBridge
